import Mathlib

/-!
# Verification of the Motherson knowledge-graph core

A shallow embedding, in Lean 4, of the knowledge-graph construction and
entity-resolution engine (`src/graph/entity_resolver.py`,
`src/graph/graph_builder.py`, `src/graph/database.py`), together with
theorems settling the specification claims about it.

Modelling conventions:
* Python dictionaries holding heterogeneous extraction data are modelled as
  association lists over a `PyVal` sum type, with Python's first-occurrence
  lookup and in-place update semantics; truthiness follows Python
  (`None`, `""`, `0`, `False` are falsy).
* Python strings are Lean `String`s; the regex character class `\w` is
  modelled at ASCII (`isAlphanum` or underscore), `\s` as Python's six
  whitespace characters.  All concrete inputs appearing in theorems are
  ASCII, where the two notions agree.
* SQLite is modelled relationally: tables are lists of row structures, SQL
  `NULL` is `Option.none`, and `WHERE` comparisons follow SQL three-valued
  logic (a comparison against `NULL` never selects a row).
* `try/except` blocks are modelled with `Except`; whether an individual
  `INSERT` raises is abstracted into a failure oracle, so theorems can
  quantify over every pattern of write failures.
-/

namespace Motherson

/-! ## Python values and dictionaries -/

/-- A Python value as it occurs in the extraction dictionaries:
`None`, a string, a number, or a boolean. -/
inductive PyVal where
  | none : PyVal
  | str : String → PyVal
  | num : ℚ → PyVal
  | bool : Bool → PyVal
deriving DecidableEq, Repr

/-- A Python dict, as an insertion-ordered association list. -/
abbrev Dict := List (String × PyVal)

/-- Python `d[k]` / `d.get(k)` lookup: first entry with the key. -/
def dget : Dict → String → Option PyVal
  | [], _ => Option.none
  | (k, v) :: rest, key => if k = key then some v else dget rest key

/-- Python `d.get(k, default)`: the stored value when the key is present
(even if that value is `None`), otherwise the default. -/
def dgetD (d : Dict) (key : String) (dflt : PyVal) : PyVal :=
  (dget d key).getD dflt

/-- Python `d[k] = v`: replace the first entry with the key, or append. -/
def dset : Dict → String → PyVal → Dict
  | [], k, v => [(k, v)]
  | (k', w) :: rest, k, v =>
      if k' = k then (k, v) :: rest else (k', w) :: dset rest k v

/-- Python truthiness of a `PyVal`. -/
def truthy : PyVal → Bool
  | .none => false
  | .str s => s ≠ ""
  | .num q => q ≠ 0
  | .bool b => b

/-- Python `<` on two values of the same shape (heterogeneous comparison
raises in Python and is not exercised by the embedded code paths). -/
def pyLt : PyVal → PyVal → Bool
  | .str a, .str b => a < b
  | .num a, .num b => a < b
  | _, _ => false

/-- Python `>` on two values of the same shape. -/
def pyGt : PyVal → PyVal → Bool
  | .str a, .str b => b < a
  | .num a, .num b => b < a
  | _, _ => false

/-- A string-valued field fetched with `d.get(k, dflt)` where the caller
expects a string (`''`-style default).  A stored non-string is not
exercised by the embedded call sites. -/
def getStr (d : Dict) (key : String) (dflt : String) : String :=
  match dget d key with
  | some (.str s) => s
  | _ => dflt

/-- `d.get(k)` viewed as an optional string: `None`/missing ↦ `none`. -/
def getOptStr (d : Dict) (key : String) : Option String :=
  match dget d key with
  | some (.str s) => some s
  | _ => Option.none

/-- `d.get(k, dflt)` viewed as an optional string: a missing key gives the
(string) default, a stored `None` stays `None`.  This distinction is what
SQL parameter binding sees. -/
def getStrD? (d : Dict) (key : String) (dflt : String) : Option String :=
  match dget d key with
  | Option.none => some dflt
  | some (.str s) => some s
  | some _ => Option.none

/-! ## Python string primitives -/

/-- Python's whitespace class `\s` (ASCII). -/
def isPySpace (c : Char) : Bool :=
  c = ' ' || c = '\t' || c = '\n' || c = '\r' || c = '\x0b' || c = '\x0c'

/-- The regex class `\w`, modelled at ASCII: alphanumeric or underscore. -/
def isWordChar (c : Char) : Bool :=
  c.isAlphanum || c = '_'

/-- `str.strip()` on a character list. -/
def pyStripL (l : List Char) : List Char :=
  ((l.dropWhile isPySpace).reverse.dropWhile isPySpace).reverse

/-- Lowercasing (ASCII agrees with Python `str.lower()`). -/
def lowerStr (s : String) : String :=
  ⟨s.data.map Char.toLower⟩

/-- Uppercasing (ASCII agrees with Python `str.upper()`). -/
def upperStr (s : String) : String :=
  ⟨s.data.map Char.toUpper⟩

/-- `re.sub(r'\s+', ' ', ·)`: collapse each whitespace run to one space.
The Boolean records whether the previous character was whitespace. -/
def collapseAux : Bool → List Char → List Char
  | _, [] => []
  | prevSpace, c :: rest =>
      if isPySpace c then
        if prevSpace then collapseAux true rest
        else ' ' :: collapseAux true rest
      else c :: collapseAux false rest

/-- Collapse whitespace runs in a character list. -/
def collapseWsL (l : List Char) : List Char := collapseAux false l

/-- `re.sub(r'[^\w\s]', '', ·)`: drop punctuation. -/
def removeNonWordL (l : List Char) : List Char :=
  l.filter (fun c => isWordChar c || isPySpace c)

/-- `str.split()` with no argument: split on whitespace runs, no empty
tokens.  The accumulator holds the current token reversed. -/
def pySplitAux : List Char → List Char → List String
  | [], acc => if acc = [] then [] else [⟨acc.reverse⟩]
  | c :: rest, acc =>
      if isPySpace c then
        if acc = [] then pySplitAux rest []
        else ⟨acc.reverse⟩ :: pySplitAux rest []
      else pySplitAux rest (c :: acc)

/-- `str.split()` with no argument. -/
def pySplit (s : String) : List String := pySplitAux s.data []

/-- Does the second list start with the first (the pattern)? -/
def startsL : List Char → List Char → Bool
  | [], _ => true
  | _ :: _, [] => false
  | a :: as, b :: bs => a = b && startsL as bs

/-- Python's `pat in s` substring test. -/
def containsSeq : List Char → List Char → Bool
  | pat, [] => startsL pat []
  | pat, c :: rest => startsL pat (c :: rest) || containsSeq pat rest

/-- Python's `pat in s` on strings. -/
def containsSub (pat s : String) : Bool := containsSeq pat.data s.data

/-- Python's `s.endswith(pat)`. -/
def endsL (pat s : List Char) : Bool := startsL pat.reverse s.reverse

/-! ## EntityResolver (`src/graph/entity_resolver.py`) -/

/-- `EntityResolver.common_suffixes`. -/
def commonSuffixes : List String :=
  ["plant", "facility", "unit", "manufacturing", "factory", "site"]

/-- One pass of the suffix-removal loop body: if the name ends with
`' ' + suffix`, drop the suffix characters and strip. -/
def stripOneSuffix (name : String) (suf : String) : String :=
  if endsL (" " ++ suf).data name.data then
    ⟨pyStripL (name.data.take (name.data.length - suf.data.length))⟩
  else name

/-- `EntityResolver.normalize_name`: lowercase, strip, collapse whitespace,
drop punctuation, then strip the fixed generic suffixes in order. -/
def normalizeName (name : String) : String :=
  if name = "" then ""
  else
    let l := pyStripL (name.data.map Char.toLower)
    let l := collapseWsL l
    let l := removeNonWordL l
    commonSuffixes.foldl stripOneSuffix ⟨l⟩

/-- `EntityResolver.normalize_location`: lowercase city and state tokens
joined by a space; falsy (missing/empty) parts are skipped. -/
def normalizeLocation (city state : Option String) : String :=
  let part : Option String → List String := fun o =>
    match o with
    | some s => if s = "" then [] else [⟨pyStripL (s.data.map Char.toLower)⟩]
    | Option.none => []
  String.intercalate " " (part city ++ part state)

/-- The token set of a (lowercased) string, as used for Jaccard overlap. -/
def tokSet (s : String) : Finset String := (pySplit s).toFinset

/-- `EntityResolver.calculate_similarity`: token-set Jaccard similarity. -/
def calculateSimilarity (name1 name2 : String) : ℚ :=
  if name1 = "" ∨ name2 = "" then 0
  else
    let t1 := tokSet (lowerStr name1)
    let t2 := tokSet (lowerStr name2)
    if t1 = ∅ ∨ t2 = ∅ then 0
    else
      let inter := t1 ∩ t2
      let un := t1 ∪ t2
      -- `len(intersection) / len(union)` as an exact rational
      if un = ∅ then 0 else mkRat inter.card un.card

/-- The fixed Indian-state list of `should_merge`'s Rule 2. -/
def statesList : List String :=
  ["gujarat", "tamil nadu", "maharashtra", "haryana", "karnataka",
   "uttar pradesh", "rajasthan", "punjab", "telangana"]

/-- `loc.lower() if loc else ""`. -/
def locLower (loc : String) : String :=
  if loc = "" then "" else lowerStr loc

/-- Rule 2 of `should_merge` (lines 103-117): name similarity at least the
threshold, both locations non-empty, and a common state-name substring. -/
def ruleB (normName1 normName2 loc1 loc2 : String) (threshold : ℚ) : Bool :=
  let sim := calculateSimilarity normName1 normName2
  if threshold ≤ sim then
    let l1 := locLower loc1
    let l2 := locLower loc2
    if l1 ≠ "" ∧ l2 ≠ "" then
      statesList.any (fun st => containsSub st l1 && containsSub st l2)
    else false
  else false

/-- The outcome of the Rule 1 block of `should_merge` (lines 83-101):
`some b` when the block returns `b` directly, `none` when control falls
through to Rule 2.  With equal non-empty normalized names and at least one
empty location, the block returns `len > 5` directly — it never reaches
Rule 2 in that case. -/
def ruleAOutcome (name1 loc1 name2 loc2 : String) : Option Bool :=
  let n1 := normalizeName name1
  let n2 := normalizeName name2
  if n1 = n2 ∧ n1 ≠ "" then
    let l1 := locLower loc1
    let l2 := locLower loc2
    if l1 = "" ∨ l2 = "" then some (decide (5 < n1.length))
    else if tokSet l1 ∩ tokSet l2 ≠ ∅ then some true
    else Option.none
  else Option.none

/-- `EntityResolver.should_merge` (threshold defaulted to 0.8). -/
def shouldMerge (name1 loc1 name2 loc2 : String)
    (threshold : ℚ := mkRat 4 5) : Bool :=
  let n1 := normalizeName name1
  let n2 := normalizeName name2
  match ruleAOutcome name1 loc1 name2 loc2 with
  | some b => b
  | Option.none => ruleB n1 n2 loc1 loc2 threshold

/-- The spec's reading of Rule A, written from the claim's words (for the
refinement comparison only): identical non-empty normalized names AND
(location token sets intersect, OR both locations empty and the shared
name longer than 5 characters). -/
def specRuleA (name1 loc1 name2 loc2 : String) : Prop :=
  normalizeName name1 = normalizeName name2 ∧ normalizeName name1 ≠ "" ∧
    (tokSet (locLower loc1) ∩ tokSet (locLower loc2) ≠ ∅ ∨
      (locLower loc1 = "" ∧ locLower loc2 = "" ∧
        5 < (normalizeName name1).length))

instance (name1 loc1 name2 loc2 : String) :
    Decidable (specRuleA name1 loc1 name2 loc2) := by
  unfold specRuleA; infer_instance

/-- A facility candidate dict. -/
abbrev Fac := Dict

/-- The grouping key `fac.get('division', 'Unknown')` of
`resolve_facilities`. -/
def divKey (f : Fac) : PyVal := dgetD f "division" (.str "Unknown")

/-- The pairwise test of the inner loop of `resolve_facilities`
(lines 154-160): `should_merge` on the names and normalized locations. -/
def shouldMergeF (fac1 fac2 : Fac) : Bool :=
  shouldMerge (getStr fac1 "name" "")
    (normalizeLocation (getOptStr fac1 "city") (getOptStr fac1 "state"))
    (getStr fac2 "name" "")
    (normalizeLocation (getOptStr fac2 "city") (getOptStr fac2 "state"))

/-- The anchor scan of `resolve_facilities` (lines 140-166) on one division
partition, with explicit fuel so that the kernel can evaluate it.  Each
step takes the first not-yet-merged candidate as anchor, absorbs every
later not-yet-merged candidate that `should_merge`s with it, and recurses
on the rest; this is exactly the `merged_indices` bookkeeping of the
source, because an index enters `merged_indices` exactly when its
candidate is absorbed, and anchors are scanned in order. -/
def resolveListFuel : ℕ → List Fac → List (Fac × List Fac)
  | 0, _ => []
  | _ + 1, [] => []
  | n + 1, f :: rest =>
      (f, rest.filter (fun g => shouldMergeF f g)) ::
        resolveListFuel n (rest.filter (fun g => ! shouldMergeF f g))

/-- The anchor scan on one division partition. -/
def resolveList (l : List Fac) : List (Fac × List Fac) :=
  resolveListFuel l.length l

/-- One step of the dict-wise merge of `_merge_facility_group`
(lines 182-196): the three sequential `if`s on one `(key, value)` item of
a later candidate. -/
def mergeStep (m : Fac) (kv : String × PyVal) : Fac :=
  let k := kv.1
  let v := kv.2
  -- fill a falsy field
  let m1 := if ¬ truthy (dgetD m k .none) ∧ truthy v then dset m k v else m
  -- keep the earliest date
  let m2 :=
    if (k = "event_date" ∨ k = "announcement_date") ∧ truthy v then
      match dget m1 k with
      | Option.none => dset m1 k v
      | some w => if ¬ truthy w ∨ pyLt v w then dset m1 k v else m1
    else m1
  -- keep the highest confidence
  if k = "confidence" ∧ truthy v then
    match dget m2 k with
    | Option.none => dset m2 k v
    | some w => if ¬ truthy w ∨ pyGt v w then dset m2 k v else m2
  else m2

/-- Fold one later candidate of a merge group into the accumulator. -/
def mergeOne (m : Fac) (f : Fac) : Fac := f.foldl mergeStep m

/-- `EntityResolver._merge_facility_group` on a group given as anchor plus
absorbed candidates: copy the anchor, fold in the later candidates, then
tag `was_merged` and `merge_count` (= group size, stored as a number). -/
def mergeFacilityGroup (g : Fac × List Fac) : Fac :=
  let merged := g.2.foldl mergeOne g.1
  dset (dset merged "was_merged" (.bool true)) "merge_count"
    (.num (mkRat (1 + g.2.length) 1))

/-- The distinct division keys in first-occurrence order (Python dict key
order of `division_groups`), with fuel for kernel evaluation. -/
def firstKeysFuel : ℕ → List Fac → List PyVal
  | 0, _ => []
  | _ + 1, [] => []
  | n + 1, f :: rest =>
      divKey f ::
        firstKeysFuel n (rest.filter (fun g => ! decide (divKey g = divKey f)))

/-- The distinct division keys in first-occurrence order. -/
def firstKeys (l : List Fac) : List PyVal := firstKeysFuel l.length l

/-- `EntityResolver.resolve_facilities`: partition by division key in
first-occurrence order (Python dict grouping preserves both the key order
and the order of candidates within a key), run the anchor scan on each
partition, and merge each group. -/
def resolveFacilities (facilities : List Fac) : List Fac :=
  if facilities = [] then []
  else
    (firstKeys facilities).flatMap (fun k =>
      (resolveList (facilities.filter (fun f => decide (divKey f = k)))).map
        mergeFacilityGroup)

/-- `merge_count` of a resolved record, as a natural number. -/
def mergeCountOf (d : Fac) : ℕ :=
  match dget d "merge_count" with
  | some (.num q) => q.num.toNat
  | _ => 0

/-- Decidable equality for `Except`, used to state closed evaluations of
the ingestion model. -/
instance {e a : Type} [DecidableEq e] [DecidableEq a] :
    DecidableEq (Except e a) := fun x y =>
  match x, y with
  | .ok u, .ok v =>
      if h : u = v then isTrue (by rw [h]) else isFalse (by simp [h])
  | .error u, .error v =>
      if h : u = v then isTrue (by rw [h]) else isFalse (by simp [h])
  | .ok _, .error _ => isFalse (by simp)
  | .error _, .ok _ => isFalse (by simp)

/-! ## Store rows (`src/graph/database.py` schema) -/

/-- A row of `sources` (schema columns used by the code). -/
structure SourceRow where
  id : ℕ
  url : Option String
  title : Option String
  fetched_at : Option String
  mime_type : Option String
  publish_date : Option String
  source_type : Option String
deriving DecidableEq, Repr

/-- A row of `divisions`. -/
structure DivisionRow where
  id : ℕ
  company_id : ℕ
  name : String
deriving DecidableEq, Repr

/-- A row of `facilities`.  `city`/`state` are nullable (`NULL` when the
inserted Python value was `None`). -/
structure FacilityRow where
  id : ℕ
  division_id : ℕ
  name : Option String
  city : Option String
  state : Option String
  country : Option String
  normalized_name : String
deriving DecidableEq, Repr

/-- A row of `events`. -/
structure EventRow where
  id : ℕ
  facility_id : ℕ
  event_type : Option String
  event_date : Option String
  status : Option String
  expansion_type : Option String
  confidence : ℚ
deriving DecidableEq, Repr

/-- A row of `jobs`. -/
structure JobRow where
  id : ℕ
  title : Option String
  location : Option String
  is_factory_role : ℕ
  source_id : Option ℕ
  posted_date : Option String
  description : Option String
deriving DecidableEq, Repr

/-- A row of `evidence`. -/
structure EvidenceRow where
  id : ℕ
  source_id : Option ℕ
  entity_type : String
  entity_id : ℕ
  text_snippet : String
  confidence : ℚ
deriving DecidableEq, Repr

/-- The store: the seven tables plus the next fresh row id. -/
structure DB where
  companies : List (ℕ × String)
  divisions : List DivisionRow
  facilities : List FacilityRow
  events : List EventRow
  jobs : List JobRow
  sources : List SourceRow
  evidence : List EvidenceRow
  nextId : ℕ
deriving DecidableEq, Repr

/-- The empty store (fresh schema). -/
def emptyDB : DB :=
  { companies := [], divisions := [], facilities := [], events := [],
    jobs := [], sources := [], evidence := [], nextId := 1 }

/-- SQL `LOWER(a) = LOWER(b)` under three-valued logic: a comparison
involving `NULL` does not select the row. -/
def sqlLowerEq : Option String → Option String → Bool
  | some a, some b => lowerStr a = lowerStr b
  | _, _ => false

/-- Which individual `INSERT` statements raise.  Each failure function
receives the payload of the corresponding insert, so theorems quantify
over every pattern of write failures (FK violations, I/O errors, ...).
`SELECT`s are assumed not to fail. -/
structure FailOracle where
  failCompany : Bool
  failDivision : String → Bool
  failSource : Dict → Bool
  failFacility : Dict → Bool
  failEvent : ℕ → Bool
  failJob : Dict → Bool
  failEvidence : ℕ → Bool

/-- The oracle under which no write ever raises. -/
def okOracle : FailOracle :=
  { failCompany := false, failDivision := fun _ => false,
    failSource := fun _ => false, failFacility := fun _ => false,
    failEvent := fun _ => false, failJob := fun _ => false,
    failEvidence := fun _ => false }

/-! ## GraphBuilder lookup tables and utilities
(`src/graph/graph_builder.py`) -/

/-- `GraphBuilder.division_map`. -/
def divisionMap : List (String × String) :=
  [("MSWIL", "Wiring Systems"), ("MSW", "Wiring Systems"),
   ("WIRING", "Wiring Systems"), ("SMR", "Vision Systems"),
   ("VISION", "Vision Systems"), ("SMP", "Polymers"),
   ("POLYMER", "Polymers"), ("SEATING", "Seating Systems"),
   ("LOGISTICS", "Logistics"), ("PKC", "Wiring Systems")]

/-- `GraphBuilder.city_to_state`. -/
def cityToState : List (String × String) :=
  [("Sanand", "Gujarat"), ("Ahmedabad", "Gujarat"), ("Navagam", "Gujarat"),
   ("Pune", "Maharashtra"), ("Chakan", "Maharashtra"),
   ("Mumbai", "Maharashtra"), ("Chennai", "Tamil Nadu"),
   ("Hosur", "Tamil Nadu"), ("Bangalore", "Karnataka"),
   ("Bengaluru", "Karnataka"), ("Manesar", "Haryana"),
   ("Gurgaon", "Haryana"), ("Gurugram", "Haryana"),
   ("Noida", "Uttar Pradesh"), ("Haridwar", "Uttarakhand"),
   ("Bawal", "Haryana"), ("Dharuhera", "Haryana")]

/-- `GraphBuilder._normalize_name`: lowercase, strip, collapse whitespace
(distinct from the resolver's `normalize_name`). -/
def gbNormalizeName (name : String) : String :=
  if name = "" then ""
  else ⟨collapseWsL (pyStripL (name.data.map Char.toLower))⟩

/-- `GraphBuilder._extract_city_from_text`: first city of the table whose
lowercase form occurs in the lowercased text. -/
def extractCityFromText (text : String) : Option String :=
  (cityToState.find? (fun p => containsSub (lowerStr p.1) (lowerStr text))).map
    (·.1)

/-- `GraphBuilder._infer_division`: abbreviation scan then keyword rules. -/
def inferDivision (text : String) : String :=
  let tu := upperStr text
  match divisionMap.find? (fun p => containsSub p.1 tu) with
  | some p => p.2
  | Option.none =>
      if containsSub "WIRING" tu || containsSub "HARNESS" tu then
        "Wiring Systems"
      else if containsSub "VISION" tu || containsSub "MIRROR" tu then
        "Vision Systems"
      else if containsSub "POLYMER" tu then "Polymers"
      else if containsSub "SEATING" tu then "Seating Systems"
      else if containsSub "LOGISTIC" tu then "Logistics"
      else "Unknown"

/-! ## GraphBuilder ingestion helpers -/

/-- `GraphBuilder._ensure_company` (no `try`: a raising insert propagates).
Returns the store and the company id. -/
def ensureCompany (o : FailOracle) (db : DB) : Except Unit (DB × ℕ) :=
  match db.companies.find? (fun c => c.2 = "Motherson") with
  | some c => .ok (db, c.1)
  | Option.none =>
      if o.failCompany then .error ()
      else
        .ok ({ db with
                 companies := db.companies ++ [(db.nextId, "Motherson")],
                 nextId := db.nextId + 1 }, db.nextId)

/-- `self.division_map.get(division_name.upper(), division_name)`: the
canonical division name; unmapped names pass through. -/
def normalizeDivision (divisionName : String) : String :=
  match divisionMap.find? (fun p => p.1 = upperStr divisionName) with
  | some p => p.2
  | Option.none => divisionName

/-- `GraphBuilder._ensure_division` (no `try`: a raising insert
propagates). -/
def ensureDivision (o : FailOracle) (db : DB) (companyId : ℕ)
    (divisionName : String) : Except Unit (DB × ℕ) :=
  match db.divisions.find?
      (fun d => d.company_id = companyId ∧
        d.name = normalizeDivision divisionName) with
  | some d => .ok (db, d.id)
  | Option.none =>
      if o.failDivision (normalizeDivision divisionName) then .error ()
      else
        .ok ({ db with
                 divisions := db.divisions ++
                   [{ id := db.nextId, company_id := companyId,
                      name := normalizeDivision divisionName }],
                 nextId := db.nextId + 1 }, db.nextId)

/-- `GraphBuilder._insert_source` (guarded by `try/except`, so it never
propagates: a raising write yields `none`).  `INSERT OR IGNORE` keyed on
the unique `url`: when a row with the same non-`NULL` url exists the
insert is ignored and `lastrowid` of the fresh cursor is `None`. -/
def insertSource (o : FailOracle) (db : DB) (sd : Dict) : DB × Option ℕ :=
  if o.failSource sd then (db, Option.none)
  else
    let url := getStrD? sd "url" "unknown"
    let ignored : Bool := match url with
      | some u => (db.sources.find? (fun s : SourceRow => s.url = some u)).isSome
      | Option.none => false
    if ignored then (db, Option.none)
    else
      ({ db with
           sources := db.sources ++
             [{ id := db.nextId, url := url,
                title := getStrD? sd "title" "Untitled",
                fetched_at := getOptStr sd "fetched_at",
                mime_type := getStrD? sd "mime" "text/html",
                publish_date := getOptStr sd "publish_dt",
                source_type := getStrD? sd "source_type" "web" }],
           nextId := db.nextId + 1 }, some db.nextId)

/-- `GraphBuilder._insert_facility` (guarded by `try/except`).  The
existence check compares `LOWER(name)`/`LOWER(city)` against the
parameters `fac_data.get('name', '')` / `fac_data.get('city', '')` under
SQL three-valued logic; the inserted row stores `fac_data.get('city')`
(i.e. `NULL` for a missing key or stored `None`). -/
def insertFacility (o : FailOracle) (db : DB) (fd : Dict)
    (divisionId : ℕ) : DB × Option ℕ :=
  let nameParam := getStrD? fd "name" ""
  let cityParam := getStrD? fd "city" ""
  match db.facilities.find?
      (fun f => sqlLowerEq f.name nameParam &&
        sqlLowerEq f.city cityParam) with
  | some f => (db, some f.id)
  | Option.none =>
      if o.failFacility fd then (db, Option.none)
      else
        ({ db with
             facilities := db.facilities ++
               [{ id := db.nextId, division_id := divisionId,
                  name := getStrD? fd "name" "",
                  city := getOptStr fd "city",
                  state := getOptStr fd "state",
                  country := getStrD? fd "country" "India",
                  normalized_name :=
                    gbNormalizeName (getStr fd "name" "") }],
             nextId := db.nextId + 1 }, some db.nextId)

/-- `GraphBuilder._insert_event` (guarded by `try/except`).  Both call
sites build the event dict in place, so the post-defaulting fields are
passed explicitly: `event_type` is always `'operational'` and
`confidence` always the 0.8 default. -/
def insertEvent (o : FailOracle) (db : DB) (facilityId : ℕ)
    (status : Option String) (eventDate : Option String)
    (expansionType : Option String) : DB × Option ℕ :=
  if o.failEvent facilityId then (db, Option.none)
  else
    ({ db with
         events := db.events ++
           [{ id := db.nextId, facility_id := facilityId,
              event_type := some "operational", event_date := eventDate,
              status := status, expansion_type := expansionType,
              confidence := mkRat 8 10 }],
         nextId := db.nextId + 1 }, some db.nextId)

/-- `GraphBuilder._insert_job` (guarded by `try/except`).
`is_factory_role` is stored as `1 if job_data.get('is_factory_role') else
0`: a missing key means a falsy `None`, hence `0`. -/
def insertJob (o : FailOracle) (db : DB) (jd : Dict)
    (sourceId : Option ℕ) : DB × Option ℕ :=
  if o.failJob jd then (db, Option.none)
  else
    ({ db with
         jobs := db.jobs ++
           [{ id := db.nextId,
              title := getStrD? jd "title" "",
              location := getStrD? jd "location" "India",
              is_factory_role :=
                if truthy (dgetD jd "is_factory_role" .none) then 1 else 0,
              source_id := sourceId,
              posted_date := getOptStr jd "posted_date",
              description := getOptStr jd "description" }],
         nextId := db.nextId + 1 }, some db.nextId)

/-- `GraphBuilder._insert_evidence` (guarded by `try/except`; returns
nothing).  The snippet is truncated to 500 characters. -/
def insertEvidence (o : FailOracle) (db : DB) (sourceId : Option ℕ)
    (entityType : String) (entityId : ℕ) (text : String)
    (conf : ℚ) : DB :=
  if o.failEvidence entityId then db
  else
    { db with
        evidence := db.evidence ++
          [{ id := db.nextId, source_id := sourceId,
             entity_type := entityType, entity_id := entityId,
             text_snippet := ⟨text.data.take 500⟩, confidence := conf }],
        nextId := db.nextId + 1 }

/-! ## GraphBuilder.build_graph -/

/-- One extracted item of the ingestion batch.  `source_data` carries the
flat source fields; `structured_facilities`/`structured_jobs` model the
optional keys of the same dict (`none` = key absent), and the two entity
lists model `entities.get('facilities', [])` /
`entities.get('job_titles', [])`. -/
structure Item where
  source_data : Dict
  structured_facilities : Option (List Dict)
  structured_jobs : Option (List Dict)
  ent_facilities : List Dict
  ent_job_titles : List Dict

/-- The `structured_facilities` loop body of `build_graph`
(lines 80-102): ensure the division (can propagate a failure), insert the
facility, and on success append its event and evidence. -/
def processStructuredFac (o : FailOracle) (companyId : ℕ)
    (sourceId : Option ℕ) (db : DB) (fd : Dict) : Except Unit DB := do
  let divisionName := getStr fd "division" "Unknown"
  let (db, divisionId) ← ensureDivision o db companyId divisionName
  let (db, facilityId?) := insertFacility o db fd divisionId
  match facilityId? with
  | Option.none => pure db
  | some fid =>
      let (db, _) := insertEvent o db fid (getStrD? fd "status" "operational")
        (getOptStr fd "date") (getOptStr fd "expansion_type")
      pure (insertEvidence o db sourceId "FACILITY" fid
        (getStr fd "name" "") (mkRat 9 10))

/-- The `entities['facilities']` loop body of `build_graph`
(lines 113-145): infer city/state/division from the mention text, then the
same division/facility/event/evidence sequence with confidence 0.8. -/
def processEntityFac (o : FailOracle) (companyId : ℕ)
    (sourceId : Option ℕ) (db : DB) (fe : Dict) : Except Unit DB := do
  let text := getStr fe "text" ""
  let city := extractCityFromText text
  let state := match city with
    | some c => (cityToState.find? (fun p => p.1 = c)).map (·.2)
    | Option.none => Option.none
  let divisionName := inferDivision text
  let (db, divisionId) ← ensureDivision o db companyId divisionName
  let fd : Dict :=
    [("name", .str text),
     ("city", match city with | some c => .str c | Option.none => .none),
     ("state", match state with | some s => .str s | Option.none => .none),
     ("division", .str divisionName),
     ("status", .str "operational")]
  let (db, facilityId?) := insertFacility o db fd divisionId
  match facilityId? with
  | Option.none => pure db
  | some fid =>
      let (db, _) := insertEvent o db fid (some "operational")
        Option.none Option.none
      pure (insertEvidence o db sourceId "FACILITY" fid text (mkRat 8 10))

/-- The job dict built for an `entities['job_titles']` mention
(lines 149-153): `is_factory_role` defaults to `True` on this path. -/
def jobFromEntity (je : Dict) : Dict :=
  [("title", dgetD je "text" (.str "")),
   ("location", dgetD je "location" (.str "India")),
   ("is_factory_role", dgetD je "is_factory_role" (.bool true))]

/-- One iteration of the ingestion loop of `build_graph` (lines 69-157).
There is no per-item `try/except`: only the insert helpers' internal
guards absorb failures, while `_ensure_division` propagates. -/
def processItem (o : FailOracle) (companyId : ℕ) (db : DB)
    (item : Item) : Except Unit DB := do
  let (db, sourceId?) := insertSource o db item.source_data
  let db ← match item.structured_facilities with
    | some facs => facs.foldlM (processStructuredFac o companyId sourceId?) db
    | Option.none => pure db
  let db := match item.structured_jobs with
    | some jobs => jobs.foldl (fun d jd => (insertJob o d jd sourceId?).1) db
    | Option.none => db
  let db ← item.ent_facilities.foldlM (processEntityFac o companyId sourceId?) db
  pure (item.ent_job_titles.foldl
    (fun d je => (insertJob o d (jobFromEntity je) sourceId?).1) db)

/-- `GraphBuilder.build_graph`: establish the Company row, then fold the
ingestion loop over the batch.  The returned statistics dict is
observability only and not modelled. -/
def buildGraph (o : FailOracle) (db : DB) (extractedData : List Item) :
    Except Unit DB := do
  let (db, companyId) ← ensureCompany o db
  extractedData.foldlM (processItem o companyId) db

/-! ## GraphBuilder.query_expansions (lines 375-477)

The two SQL strategies return tuples
`(facility, city, state, division, event_date, expansion_type, status,
confidence, url, source_title, publish_date)`; strategy 1 selects events
with a non-`NULL` stored `expansion_type`, strategy 2 selects events with
status `planned`/`under-construction` and puts the literal `'expansion'`
in the `expansion_type` column.  The Python post-processing
(lines 448-474) concatenates the two result lists and deduplicates.  The
theorems below quantify over arbitrary result lists `rows1`/`rows2`, which
subsumes every store state and every date-filter combination. -/

/-- One tuple returned by either expansion query. -/
structure ExpRow where
  facility : Option String
  city : Option String
  state : Option String
  division : Option String
  event_date : Option String
  expansion_type : Option String
  status : Option String
  confidence : Option ℚ
  url : Option String
  source_title : Option String
  publish_date : Option String
deriving DecidableEq, Repr

/-- The output mapping built for one kept tuple. -/
structure ExpOut where
  facility : Option String
  city : Option String
  state : Option String
  division : Option String
  event_date : Option String
  timeline : String
  expansion_type : String
  status : String
  confidence : ℚ
  url : String
  source_title : String
  publish_date : Option String
deriving DecidableEq, Repr

/-- Python `x or default` for an optional string column: `None` and `""`
are falsy. -/
def pyOrS : Option String → String → String
  | some s, dflt => if s = "" then dflt else s
  | Option.none, dflt => dflt

/-- Python `x or default` for an optional numeric column. -/
def pyOrQ : Option ℚ → ℚ → ℚ
  | some q, dflt => if q = 0 then dflt else q
  | Option.none, dflt => dflt

/-- `r[i].lower() if r[i] else ''`. -/
def optLower : Option String → String
  | some s => lowerStr s
  | Option.none => ""

/-- The dedup key `(lower(facility), lower(city))` of a tuple. -/
def expKey (r : ExpRow) : String × String :=
  (optLower r.facility, optLower r.city)

/-- The result dict built from one tuple (lines 460-473), with the `or`
defaults. -/
def convertExpRow (r : ExpRow) : ExpOut :=
  { facility := r.facility, city := r.city, state := r.state,
    division := r.division, event_date := r.event_date,
    timeline := pyOrS r.event_date "FY 2024-25",
    expansion_type := pyOrS r.expansion_type "greenfield",
    status := pyOrS r.status "planned",
    confidence := pyOrQ r.confidence (mkRat 7 10),
    url := pyOrS r.url "https://www.motherson.com",
    source_title := pyOrS r.source_title "Motherson Document",
    publish_date := r.publish_date }

/-- The dedup loop of `query_expansions` (lines 451-474): skip a tuple
whose key was seen or is `('', '')`, otherwise record the key and emit the
converted row. -/
def dedupExpAux : List (String × String) → List ExpRow → List ExpOut
  | _, [] => []
  | seen, r :: rest =>
      if expKey r ∈ seen ∨ expKey r = ("", "") then dedupExpAux seen rest
      else convertExpRow r :: dedupExpAux (expKey r :: seen) rest

/-- The final `seen` set of the dedup loop (the dedup bookkeeping). -/
def dedupSeenAux : List (String × String) → List ExpRow →
    List (String × String)
  | seen, [] => seen
  | seen, r :: rest =>
      if expKey r ∈ seen ∨ expKey r = ("", "") then dedupSeenAux seen rest
      else dedupSeenAux (expKey r :: seen) rest

/-- `query_expansions` after the two reads: combine strategy-1 rows before
strategy-2 rows, then deduplicate. -/
def queryExpansionsPost (rows1 rows2 : List ExpRow) : List ExpOut :=
  dedupExpAux [] (rows1 ++ rows2)

/-- The dedup key of an output mapping (same columns, copied verbatim by
`convertExpRow`). -/
def expOutKey (o : ExpOut) : String × String :=
  (optLower o.facility, optLower o.city)

/-- The `SELECT` list of strategy 2 (lines 403-422): the
`expansion_type` column is the SQL literal `'expansion'`. -/
def sql2Row (facility city state division event_date : Option String)
    (status : Option String) (confidence : Option ℚ)
    (url source_title publish_date : Option String) : ExpRow :=
  { facility := facility, city := city, state := state,
    division := division, event_date := event_date,
    expansion_type := some "expansion", status := status,
    confidence := confidence, url := url, source_title := source_title,
    publish_date := publish_date }

/-! ## GraphBuilder.query_facilities (lines 303-373) -/

/-- One output mapping of `query_facilities`. -/
structure FacOut where
  id : ℕ
  name : Option String
  facility : Option String
  city : Option String
  state : Option String
  country : Option String
  division : Option String
  first_date : Option String
  last_event_date : Option String
  status : String
  expansion_type : Option String
  url : String
  source_title : String
  publish_date : Option String
  confidence : ℚ
deriving DecidableEq, Repr

/-- SQL `MIN(e.event_date)` over a facility's events: the least non-`NULL`
date (`NULL` when there is none). -/
def minDate (evs : List EventRow) : Option String :=
  (evs.filterMap (·.event_date)).foldl
    (fun acc d => match acc with
      | Option.none => some d
      | some a => if d < a then some d else some a) Option.none

/-- SQL `MAX(e.event_date)` over a facility's events. -/
def maxDate (evs : List EventRow) : Option String :=
  (evs.filterMap (·.event_date)).foldl
    (fun acc d => match acc with
      | Option.none => some d
      | some a => if a < d then some d else some a) Option.none

/-- The status subquery: `ORDER BY event_date DESC LIMIT 1`.  SQLite sorts
`NULL`s last in descending order; among equal dates the pick is
arbitrary, modelled as the first row encountered. -/
def latestStatus (evs : List EventRow) : Option String :=
  (evs.foldl
    (fun best e => match best, e.event_date with
      | Option.none, _ => some e
      | some b, Option.none => some b
      | some b, some d =>
        match b.event_date with
        | Option.none => some e
        | some bd => if bd < d then some e else some b) Option.none).bind
    (·.status)

/-- The expansion-type subquery: the first event of the facility with a
non-`NULL` `expansion_type` (`LIMIT 1` with no order, modelled as
insertion order). -/
def firstExpansionType (evs : List EventRow) : Option String :=
  (evs.find? (fun e => e.expansion_type ≠ Option.none)).bind
    (·.expansion_type)

/-- The evidence/source subqueries: the first `FACILITY` evidence row of
the facility that joins to an existing source (`LIMIT 1`, modelled as
insertion order).  No evidence, or a dangling source reference, yields
`NULL`. -/
def evidenceSource (db : DB) (facilityId : ℕ) : Option SourceRow :=
  (db.evidence.filter
    (fun ev => ev.entity_id = facilityId ∧ ev.entity_type = "FACILITY")).findSome?
    (fun ev => match ev.source_id with
      | some sid => db.sources.find? (fun s : SourceRow => s.id = sid)
      | Option.none => Option.none)

/-- The row built for one facility (grouping by `f.id, ..., d.name`
collapses the event join to one row per facility; the division name comes
from the `LEFT JOIN divisions`). -/
def facRow (db : DB) (f : FacilityRow) : FacOut :=
  let evs := db.events.filter (fun e => e.facility_id = f.id)
  let src := evidenceSource db f.id
  { id := f.id, name := f.name, facility := f.name, city := f.city,
    state := f.state, country := f.country,
    division := (db.divisions.find? (fun d => d.id = f.division_id)).map
      (·.name),
    first_date := minDate evs, last_event_date := maxDate evs,
    status := pyOrS (latestStatus evs) "operational",
    expansion_type := firstExpansionType evs,
    url := pyOrS (src.bind (·.url))
      "https://www.motherson.com/contact/address-directory",
    source_title := pyOrS (src.bind (·.title)) "Motherson Address Directory",
    publish_date := src.bind (·.publish_date),
    confidence := mkRat 9 10 }

/-- `GraphBuilder.query_facilities`: one row per facility, the optional
`division`/`state` SQL filters (a `NULL` column never matches), then the
Python-side status filter on the derived status. -/
def queryFacilities (db : DB) (division state status : Option String) :
    List FacOut :=
  let rows := (db.facilities.filter (fun f =>
    (match division with
     | some dv => ((db.divisions.find? (fun d => d.id = f.division_id)).map
         (·.name)) = some dv
     | Option.none => true) &&
    (match state with
     | some st => f.state = some st
     | Option.none => true))).map (facRow db)
  match status with
  | some st => rows.filter (fun r => lowerStr r.status = lowerStr st)
  | Option.none => rows

/-! ## Concrete fixtures used by closed evaluations -/

/-- A structured facility candidate that omits `city`. -/
def fixNoCityItem : Item :=
  { source_data := [],
    structured_facilities := some [[("name", PyVal.str "Plant A")]],
    structured_jobs := Option.none, ent_facilities := [],
    ent_job_titles := [] }

/-- The same candidate with a city present. -/
def fixCityItem : Item :=
  { source_data := [],
    structured_facilities :=
      some [[("name", PyVal.str "Plant A"), ("city", PyVal.str "Pune")]],
    structured_jobs := Option.none, ent_facilities := [],
    ent_job_titles := [] }

/-- An oracle under which only the `divisions` insert for name `"D1"`
raises. -/
def fixDivFailOracle : FailOracle :=
  { okOracle with failDivision := fun nm => nm = "D1" }

/-- A structured facility candidate in division `"D1"`. -/
def fixItemD1 : Item :=
  { source_data := [],
    structured_facilities :=
      some [[("name", PyVal.str "Plant A"), ("division", PyVal.str "D1")]],
    structured_jobs := Option.none, ent_facilities := [],
    ent_job_titles := [] }

/-- A structured facility candidate in division `"D2"`. -/
def fixItemD2 : Item :=
  { source_data := [],
    structured_facilities :=
      some [[("name", PyVal.str "Plant B"), ("division", PyVal.str "D2")]],
    structured_jobs := Option.none, ent_facilities := [],
    ent_job_titles := [] }

/-- An item carrying one pre-structured job that omits
`is_factory_role`. -/
def fixJobItem : Item :=
  { source_data := [], structured_facilities := Option.none,
    structured_jobs := some [[("title", PyVal.str "Operator")]],
    ent_facilities := [], ent_job_titles := [] }

/-- A single facility candidate dict. -/
def fixSanand : Fac := [("name", PyVal.str "Sanand")]

/-- A strategy-1 tuple (stored `expansion_type`). -/
def fixRow1 : ExpRow :=
  { facility := some "Sanand Plant", city := some "Sanand",
    state := some "Gujarat", division := some "Polymers",
    event_date := some "2024-05-01", expansion_type := some "brownfield",
    status := some "operational", confidence := some (mkRat 8 10),
    url := Option.none, source_title := Option.none,
    publish_date := Option.none }

/-- A strategy-2 tuple for the same facility, differing in letter case. -/
def fixRow2 : ExpRow :=
  sql2Row (some "SANAND PLANT") (some "SANAND") (some "Gujarat")
    (some "Polymers") Option.none (some "planned") Option.none
    Option.none Option.none Option.none

/-- A facility row with no evidence. -/
def fixFacRow : FacilityRow :=
  { id := 3, division_id := 2, name := some "Sanand Plant",
    city := some "Sanand", state := some "Gujarat",
    country := some "India", normalized_name := "sanand plant" }

/-- A store with one facility and no evidence rows. -/
def fixFacDB : DB :=
  { companies := [(1, "Motherson")],
    divisions := [{ id := 2, company_id := 1, name := "Polymers" }],
    facilities := [fixFacRow],
    events := [], jobs := [], sources := [], evidence := [], nextId := 4 }

/-! ## Theorems -/

/-- `dedupExpAux` soundness: every emitted row converts an input tuple
whose key was unseen and not `('', '')`. -/
theorem dedupExpAux_sound (rows : List ExpRow) :
    ∀ (seen : List (String × String)) (o : ExpOut),
      o ∈ dedupExpAux seen rows →
      ∃ r, r ∈ rows ∧ o = convertExpRow r ∧ expKey r ∉ seen ∧
        expKey r ≠ ("", "") := by
  induction rows with
  | nil => intro seen o h; simp [dedupExpAux] at h
  | cons r rest ih =>
      intro seen o h
      rw [dedupExpAux] at h
      by_cases hk : expKey r ∈ seen ∨ expKey r = ("", "")
      · rw [if_pos hk] at h
        obtain ⟨r2, hmem, rest2⟩ := ih seen o h
        exact ⟨r2, List.mem_cons_of_mem _ hmem, rest2⟩
      · rw [if_neg hk] at h
        push_neg at hk
        rcases List.mem_cons.mp h with h1 | h2
        · exact ⟨r, List.mem_cons_self r rest, h1, hk.1, hk.2⟩
        · obtain ⟨r2, hmem, hconv, hseen, hne⟩ := ih _ o h2
          refine ⟨r2, List.mem_cons_of_mem _ hmem, hconv, ?_, hne⟩
          intro hmem2
          exact hseen (List.mem_cons_of_mem _ hmem2)

/-- The final `seen` set only holds keys of input tuples (never
`('', '')`) besides the initial ones. -/
theorem dedupSeenAux_sound (rows : List ExpRow) :
    ∀ (seen : List (String × String)) (k : String × String),
      k ∈ dedupSeenAux seen rows →
      k ∈ seen ∨ (∃ r, r ∈ rows ∧ expKey r = k ∧ k ≠ ("", "")) := by
  induction rows with
  | nil => intro seen k h; rw [dedupSeenAux] at h; exact Or.inl h
  | cons r rest ih =>
      intro seen k h
      rw [dedupSeenAux] at h
      by_cases hk : expKey r ∈ seen ∨ expKey r = ("", "")
      · rw [if_pos hk] at h
        rcases ih seen k h with h1 | ⟨r2, hmem, h2⟩
        · exact Or.inl h1
        · exact Or.inr ⟨r2, List.mem_cons_of_mem _ hmem, h2⟩
      · rw [if_neg hk] at h
        push_neg at hk
        rcases ih _ k h with h1 | ⟨r2, hmem, h2⟩
        · rcases List.mem_cons.mp h1 with h3 | h3
          · exact Or.inr ⟨r, List.mem_cons_self r rest, h3.symm,
              h3 ▸ hk.2⟩
          · exact Or.inl h3
        · exact Or.inr ⟨r2, List.mem_cons_of_mem _ hmem, h2⟩

/-- The key of a converted tuple is the key of the tuple. -/
theorem expOutKey_convert (r : ExpRow) :
    expOutKey (convertExpRow r) = expKey r := rfl

/-- claim C10 — `query_expansions` never returns (nor records in its
dedup bookkeeping) a row whose facility name and city are both
empty-or-null: for all strategy-1/strategy-2 result lists (hence for
every store state and date-filter combination), every output mapping has
a dedup key other than `('', '')`, and `('', '')` is never added to the
`seen` set. -/
theorem claim_C10 (rows1 rows2 : List ExpRow) :
    (∀ o ∈ queryExpansionsPost rows1 rows2, expOutKey o ≠ ("", "")) ∧
      ("", "") ∉ dedupSeenAux [] (rows1 ++ rows2) := by
  constructor
  · intro o ho
    obtain ⟨r, _, hconv, _, hne⟩ := dedupExpAux_sound _ _ _ ho
    rw [hconv, expOutKey_convert]
    exact hne
  · intro h
    rcases dedupSeenAux_sound _ _ _ h with h1 | ⟨r, _, _, hne⟩
    · simp at h1
    · exact hne rfl

/-- Witness for claim C10 at a concrete store. -/
theorem claim_C10_witness :
    expOutKey (convertExpRow fixRow1) ≠ ("", "") ∧
      ("", "") ∉ dedupSeenAux [] ([fixRow1] ++ [fixRow2]) := by
  constructor
  · exact (claim_C10 [fixRow1] [fixRow2]).1 (convertExpRow fixRow1)
      (by decide)
  · exact (claim_C10 [fixRow1] [fixRow2]).2

/-- At most one output row per dedup key; none at all for a key already
seen. -/
theorem dedupExpAux_count (rows : List ExpRow) :
    ∀ (seen : List (String × String)) (k : String × String),
      ((dedupExpAux seen rows).filter
        (fun o => expOutKey o = k)).length ≤ 1 ∧
      (k ∈ seen → ((dedupExpAux seen rows).filter
        (fun o => expOutKey o = k)).length = 0) := by
  induction rows with
  | nil => intro seen k; simp [dedupExpAux]
  | cons r rest ih =>
      intro seen k
      rw [dedupExpAux]
      by_cases hk : expKey r ∈ seen ∨ expKey r = ("", "")
      · rw [if_pos hk]; exact ih seen k
      · rw [if_neg hk]
        by_cases hkey : expKey r = k
        · subst hkey
          have htail := (ih (expKey r :: seen) (expKey r)).2
            (List.mem_cons_self _ _)
          constructor
          · rw [List.filter_cons]
            simp only [expOutKey_convert]
            rw [if_pos (by simp)]
            simp [htail]
          · intro hmem
            exact absurd hmem (fun h => hk (Or.inl h))
        · have htail := ih (expKey r :: seen) k
          constructor
          · rw [List.filter_cons]
            simp only [expOutKey_convert]
            rw [if_neg (by simp [hkey])]
            exact htail.1
          · intro hmem
            rw [List.filter_cons]
            simp only [expOutKey_convert]
            rw [if_neg (by simp [hkey])]
            exact htail.2 (List.mem_cons_of_mem _ hmem)

/-- The first input tuple with an unseen, non-empty key is the one that
gets emitted for that key; a strategy-1 tuple therefore beats every
strategy-2 tuple with the same key. -/
theorem dedupExpAux_first_wins (rows1 : List ExpRow) :
    ∀ (rows2 : List ExpRow) (seen : List (String × String)) (r1 : ExpRow),
      r1 ∈ rows1 → expKey r1 ∉ seen → expKey r1 ≠ ("", "") →
      ∃ r, r ∈ rows1 ∧ expKey r = expKey r1 ∧
        convertExpRow r ∈ dedupExpAux seen (rows1 ++ rows2) := by
  induction rows1 with
  | nil => intro rows2 seen r1 h; simp at h
  | cons r0 rest ih =>
      intro rows2 seen r1 hmem hseen hne
      rw [List.cons_append, dedupExpAux]
      by_cases h0 : expKey r0 = expKey r1
      · have hcond : ¬ (expKey r0 ∈ seen ∨ expKey r0 = ("", "")) := by
          rw [h0]; intro hc; rcases hc with hc | hc
          exacts [hseen hc, hne hc]
        rw [if_neg hcond]
        exact ⟨r0, List.mem_cons_self _ _, h0,
          List.mem_cons_self _ _⟩
      · have hmem2 : r1 ∈ rest := by
          rcases List.mem_cons.mp hmem with h | h
          · exact absurd (h ▸ rfl) (fun hh => h0 (h ▸ hh))
          · exact h
        by_cases hcond : expKey r0 ∈ seen ∨ expKey r0 = ("", "")
        · rw [if_pos hcond]
          obtain ⟨r, hr, hk, hout⟩ := ih rows2 seen r1 hmem2 hseen hne
          exact ⟨r, List.mem_cons_of_mem _ hr, hk, hout⟩
        · rw [if_neg hcond]
          have hseen2 : expKey r1 ∉ expKey r0 :: seen := by
            intro hc
            rcases List.mem_cons.mp hc with hc | hc
            · exact h0 hc.symm
            · exact hseen hc
          obtain ⟨r, hr, hk, hout⟩ := ih rows2 _ r1 hmem2 hseen2 hne
          exact ⟨r, List.mem_cons_of_mem _ hr, hk,
            List.mem_cons_of_mem _ hout⟩

/-- claim C4 — `query_expansions` concatenates the strategy-1 rows before
the strategy-2 rows and deduplicates by the case-insensitive
`(facility, city)` key keeping the first occurrence: every key appears in
at most one returned row, and whenever a strategy-1 tuple carries a
(non-degenerate) key, the row returned for that key converts a strategy-1
tuple — strategy-1 rows win ties, and two tuples differing only in letter
case yield one row. -/
theorem claim_C4 (rows1 rows2 : List ExpRow) :
    (∀ k, ((queryExpansionsPost rows1 rows2).filter
      (fun o => expOutKey o = k)).length ≤ 1) ∧
    (∀ r1, r1 ∈ rows1 → expKey r1 ≠ ("", "") →
      ∃ r, r ∈ rows1 ∧ expKey r = expKey r1 ∧
        convertExpRow r ∈ queryExpansionsPost rows1 rows2) := by
  constructor
  · intro k
    exact (dedupExpAux_count (rows1 ++ rows2) [] k).1
  · intro r1 hmem hne
    exact dedupExpAux_first_wins rows1 rows2 [] r1 hmem (by simp) hne

/-- Witness for claim C4: a stored-`expansion_type` tuple and a
status-only tuple for the same facility, differing only by case. -/
theorem claim_C4_witness :
    (((queryExpansionsPost [fixRow1] [fixRow2]).filter
      (fun o => expOutKey o = ("sanand plant", "sanand"))).length ≤ 1) ∧
    (∃ r, r ∈ [fixRow1] ∧ expKey r = expKey fixRow1 ∧
      convertExpRow r ∈ queryExpansionsPost [fixRow1] [fixRow2]) ∧
    (queryExpansionsPost [fixRow1] [fixRow2]).length = 1 := by
  refine ⟨?_, ?_, by decide⟩
  · exact (claim_C4 [fixRow1] [fixRow2]).1 ("sanand plant", "sanand")
  · exact (claim_C4 [fixRow1] [fixRow2]).2 fixRow1 (by decide) (by decide)

/-- claim C7 — counterexample: a facility selected only by strategy 2
(status `planned`, no stored `expansion_type`) is returned with
`expansion_type = "expansion"`, not `"greenfield"`: the synthetic SQL
literal `'expansion'` is truthy, so the `or 'greenfield'` display default
never fires for type-(ii) rows. -/
theorem claim_C7_counterexample :
    ((queryExpansionsPost [] [fixRow2]).map
      (fun o => o.expansion_type)) = ["expansion"] ∧
    ¬ ((queryExpansionsPost [] [fixRow2]).map
      (fun o => o.expansion_type)) = ["greenfield"] := by
  constructor
  · decide
  · decide

/-- claim C7 (amended) — every returned row that originates from a
type-(ii) tuple has `expansion_type = "expansion"` (never
`"greenfield"`): the strategy-2 `SELECT` list pins the column to the
literal `'expansion'`, the conversion maps it through the truthy `or`
default unchanged, and every output row is the conversion of some input
tuple. -/
theorem claim_C7_amended :
    (∀ facility city state division event_date status confidence url
        source_title publish_date,
      (convertExpRow (sql2Row facility city state division event_date
        status confidence url source_title
        publish_date)).expansion_type = "expansion") ∧
    (∀ (rows1 rows2 : List ExpRow) (o : ExpOut),
      o ∈ queryExpansionsPost rows1 rows2 →
      ∃ r, (r ∈ rows1 ∨ r ∈ rows2) ∧ o = convertExpRow r) := by
  constructor
  · intro facility city state division event_date status confidence url
      source_title publish_date
    rfl
  · intro rows1 rows2 o ho
    obtain ⟨r, hmem, hconv, _, _⟩ := dedupExpAux_sound _ _ _ ho
    exact ⟨r, (List.mem_append.mp hmem), hconv⟩

/-- Witness for claim C7 (amended) at the concrete type-(ii) tuple. -/
theorem claim_C7_amended_witness :
    (convertExpRow (sql2Row (some "SANAND PLANT") (some "SANAND")
      (some "Gujarat") (some "Polymers") Option.none (some "planned")
      Option.none Option.none Option.none
      Option.none)).expansion_type = "expansion" ∧
    ∃ r, (r ∈ ([] : List ExpRow) ∨ r ∈ [fixRow2]) ∧
      convertExpRow fixRow2 = convertExpRow r := by
  constructor
  · exact claim_C7_amended.1 (some "SANAND PLANT") (some "SANAND")
      (some "Gujarat") (some "Polymers") Option.none (some "planned")
      Option.none Option.none Option.none Option.none
  · exact claim_C7_amended.2 [] [fixRow2] (convertExpRow fixRow2)
      (by decide)

/-- claim C8 — `query_facilities` evidence defaulting: a facility with no
`FACILITY` evidence row is still returned (one row per facility under the
unfiltered query), with `source_title = "Motherson Address Directory"`
and the fixed (non-null) address-directory default url. -/
theorem claim_C8 (db : DB) (f : FacilityRow) (hf : f ∈ db.facilities)
    (hev : ∀ ev ∈ db.evidence,
      ¬ (ev.entity_id = f.id ∧ ev.entity_type = "FACILITY")) :
    ∃ row, row ∈ queryFacilities db Option.none Option.none Option.none ∧
      row.id = f.id ∧
      row.source_title = "Motherson Address Directory" ∧
      row.url = "https://www.motherson.com/contact/address-directory" := by
  have hnil : db.evidence.filter
      (fun ev => decide (ev.entity_id = f.id ∧
        ev.entity_type = "FACILITY")) = [] := by
    rw [List.filter_eq_nil_iff]
    intro ev hmem
    simp only [decide_eq_true_eq]
    exact hev ev hmem
  have hsrc : evidenceSource db f.id = Option.none := by
    unfold evidenceSource
    rw [hnil]
    rfl
  refine ⟨facRow db f, ?_, rfl, ?_, ?_⟩
  · show facRow db f ∈ queryFacilities db Option.none Option.none
      Option.none
    unfold queryFacilities
    exact List.mem_map_of_mem _ (List.mem_filter.mpr ⟨hf, rfl⟩)
  · show pyOrS ((evidenceSource db f.id).bind (fun s => s.title))
      "Motherson Address Directory" = "Motherson Address Directory"
    rw [hsrc]
    rfl
  · show pyOrS ((evidenceSource db f.id).bind (fun s => s.url))
      "https://www.motherson.com/contact/address-directory" =
      "https://www.motherson.com/contact/address-directory"
    rw [hsrc]
    rfl

/-- Witness for claim C8 at a concrete one-facility store. -/
theorem claim_C8_witness :
    ∃ row, row ∈ queryFacilities fixFacDB Option.none Option.none
      Option.none ∧
      row.id = fixFacRow.id ∧
      row.source_title = "Motherson Address Directory" ∧
      row.url = "https://www.motherson.com/contact/address-directory" :=
  claim_C8 fixFacDB fixFacRow (by decide) (by decide)

/-- claim C1 — the idempotency the spec requires fails on the code: for a
batch whose facility candidate has no city, the first run inserts one
Facility row, and the identical second run inserts a second one (the
dedup lookup compares `LOWER(city) = LOWER('')` against a stored SQL
`NULL`, which never matches), while the Division count stays at one.
With a non-null city the same double run is idempotent, confirming that
the `NULL` comparison is what defeats the intended dedup.  This
evaluates the ingestion model at the failing input. -/
theorem claim_C1_bug :
    (buildGraph okOracle emptyDB [fixNoCityItem]).map
      (fun db => (db.facilities.length, db.divisions.length)) =
      .ok (1, 1) ∧
    ((buildGraph okOracle emptyDB [fixNoCityItem]).bind
      (fun db => buildGraph okOracle db [fixNoCityItem])).map
      (fun db => (db.facilities.length, db.divisions.length)) =
      .ok (2, 1) ∧
    ((buildGraph okOracle emptyDB [fixCityItem]).bind
      (fun db => buildGraph okOracle db [fixCityItem])).map
      (fun db => (db.facilities.length, db.divisions.length)) =
      .ok (1, 1) := by
  refine ⟨by decide, by decide, by decide⟩

/-- claim C6 — counterexample: a pre-structured job candidate that omits
`is_factory_role` is inserted with `is_factory_role = 0` (false), not
true: `_insert_job` computes `1 if job_data.get('is_factory_role') else
0` and a missing key is falsy. -/
theorem claim_C6_counterexample :
    (buildGraph okOracle emptyDB [fixJobItem]).map
      (fun db => db.jobs.map (fun j => j.is_factory_role)) = .ok [0] ∧
    ¬ (buildGraph okOracle emptyDB [fixJobItem]).map
      (fun db => db.jobs.map (fun j => j.is_factory_role)) = .ok [1] := by
  constructor
  · decide
  · decide

/-- claim C6 (amended) — a pre-structured job candidate that omits
`is_factory_role` yields a Job row with `is_factory_role = 0` (false);
the `True` default exists only on the free-text `job_titles` entity path,
which fills the dict with `job_entity.get('is_factory_role', True)`
before calling `_insert_job`. -/
theorem claim_C6_amended (o : FailOracle) (db : DB) (jd : Dict)
    (sid : Option ℕ) (hok : o.failJob jd = false)
    (hmissing : dget jd "is_factory_role" = Option.none) :
    ((insertJob o db jd sid).1.jobs.map (fun j => j.is_factory_role)) =
      db.jobs.map (fun j => j.is_factory_role) ++ [0] ∧
    (∀ je : Dict, dget je "is_factory_role" = Option.none →
      truthy (dgetD (jobFromEntity je) "is_factory_role" .none) = true) := by
  constructor
  · unfold insertJob
    rw [hok]
    simp only [Bool.false_eq_true, if_false, dgetD, hmissing,
      Option.getD, truthy, if_false]
    simp
  · intro je hje
    simp [jobFromEntity, dgetD, dget, hje, truthy]

/-- Witness for claim C6 (amended) at a concrete job candidate. -/
theorem claim_C6_amended_witness :
    ((insertJob okOracle emptyDB [("title", PyVal.str "Operator")]
      Option.none).1.jobs.map (fun j => j.is_factory_role)) =
      emptyDB.jobs.map (fun j => j.is_factory_role) ++ [0] ∧
    (∀ je : Dict, dget je "is_factory_role" = Option.none →
      truthy (dgetD (jobFromEntity je) "is_factory_role" .none) = true) :=
  claim_C6_amended okOracle emptyDB [("title", PyVal.str "Operator")]
    Option.none (by decide) (by decide)


/-- `_ensure_division` cannot raise when the divisions insert does not. -/
theorem ensureDivision_ok (o : FailOracle) (db : DB) (cid : ℕ)
    (dn : String) (h : ∀ s, o.failDivision s = false) :
    ∃ p, ensureDivision o db cid dn = .ok p := by
  unfold ensureDivision
  split
  · exact ⟨_, rfl⟩
  · rw [h]
    exact ⟨_, rfl⟩

/-- The structured-facility loop body cannot raise when the divisions
insert does not (all other writes are guarded in their helpers). -/
theorem processStructuredFac_ok (o : FailOracle) (cid : ℕ)
    (sid : Option ℕ) (db : DB) (fd : Dict)
    (h : ∀ s, o.failDivision s = false) :
    ∃ db2, processStructuredFac o cid sid db fd = .ok db2 := by
  obtain ⟨⟨db1, did⟩, hp⟩ :=
    ensureDivision_ok o db cid (getStr fd "division" "Unknown") h
  unfold processStructuredFac
  dsimp only
  rw [hp]
  dsimp only [Bind.bind, Except.bind]
  split
  · exact ⟨_, rfl⟩
  · exact ⟨_, rfl⟩

/-- The entity-facility loop body cannot raise when the divisions insert
does not. -/
theorem processEntityFac_ok (o : FailOracle) (cid : ℕ)
    (sid : Option ℕ) (db : DB) (fe : Dict)
    (h : ∀ s, o.failDivision s = false) :
    ∃ db2, processEntityFac o cid sid db fe = .ok db2 := by
  obtain ⟨⟨db1, did⟩, hp⟩ :=
    ensureDivision_ok o db cid (inferDivision (getStr fe "text" "")) h
  unfold processEntityFac
  dsimp only
  rw [hp]
  dsimp only [Bind.bind, Except.bind]
  split
  · exact ⟨_, rfl⟩
  · exact ⟨_, rfl⟩

/-- An `Except`-valued fold is `.ok` when every step is. -/
theorem foldlM_ok {α : Type} (f : DB → α → Except Unit DB) :
    ∀ (l : List α) (db : DB),
      (∀ db2 a, a ∈ l → ∃ db3, f db2 a = .ok db3) →
      ∃ db4, l.foldlM f db = .ok db4 := by
  intro l
  induction l with
  | nil => intro db _; exact ⟨db, rfl⟩
  | cons a rest ih =>
      intro db h
      obtain ⟨db3, h3⟩ := h db a (List.mem_cons_self _ _)
      rw [List.foldlM_cons, h3]
      exact ih db3 (fun db2 b hb => h db2 b (List.mem_cons_of_mem _ hb))

/-- One ingestion-loop iteration cannot raise when the divisions insert
does not. -/
theorem processItem_ok (o : FailOracle) (cid : ℕ) (db : DB) (item : Item)
    (h : ∀ s, o.failDivision s = false) :
    ∃ db2, processItem o cid db item = .ok db2 := by
  unfold processItem
  rcases hs : insertSource o db item.source_data with ⟨db0, sid⟩
  dsimp only
  cases item.structured_facilities with
  | none =>
      dsimp only [Bind.bind, Except.bind, pure, Except.pure]
      obtain ⟨dbB, hB⟩ := foldlM_ok (processEntityFac o cid sid)
        item.ent_facilities
        (match item.structured_jobs with
          | some jobs =>
              jobs.foldl (fun d jd => (insertJob o d jd sid).1) db0
          | Option.none => db0)
        (fun db2 fe _ => processEntityFac_ok o cid sid db2 fe h)
      rw [hB]
      exact ⟨_, rfl⟩
  | some facs =>
      obtain ⟨dbA, hA⟩ := foldlM_ok (processStructuredFac o cid sid) facs
        db0 (fun db2 fd _ => processStructuredFac_ok o cid sid db2 fd h)
      dsimp only [Bind.bind, Except.bind]
      rw [hA]
      dsimp only
      obtain ⟨dbB, hB⟩ := foldlM_ok (processEntityFac o cid sid)
        item.ent_facilities
        (match item.structured_jobs with
          | some jobs =>
              jobs.foldl (fun d jd => (insertJob o d jd sid).1) dbA
          | Option.none => dbA)
        (fun db2 fe _ => processEntityFac_ok o cid sid db2 fe h)
      rw [hB]
      exact ⟨_, rfl⟩

/-- claim C3 (amended) — the whole ingestion call returns normally as
long as the company bootstrap and the mid-loop `_ensure_division` writes
do not raise: every failure inside the guarded insert helpers
(`_insert_source` / `_insert_facility` / `_insert_event` / `_insert_job`
/ `_insert_evidence`) is absorbed inside the helper itself (the item is
not skipped; only the rows depending on the failed insert are), for every
store, batch, and pattern of write failures. -/
theorem claim_C3_amended (o : FailOracle) (db : DB) (batch : List Item)
    (hc : o.failCompany = false) (hd : ∀ s, o.failDivision s = false) :
    ∃ db2, buildGraph o db batch = .ok db2 := by
  unfold buildGraph
  have hco : ∃ p, ensureCompany o db = .ok p := by
    unfold ensureCompany
    split
    · exact ⟨_, rfl⟩
    · rw [hc]
      exact ⟨_, rfl⟩
  obtain ⟨⟨db1, cid⟩, hp⟩ := hco
  rw [hp]
  dsimp only [Bind.bind, Except.bind]
  exact foldlM_ok _ batch db1
    (fun db2 it _ => processItem_ok o cid db2 it hd)

/-- claim C3 — counterexample: with a raising `divisions` insert for name
`"D1"` (and a healthy company bootstrap), a two-item batch whose first
item needs division `"D1"` makes the whole `build_graph` call propagate
the error, so the second item is never processed — whereas the same batch
ingests two facilities when no write fails, and the second item alone
ingests one facility even under the failing oracle.  There is no
ingestion-loop catch. -/
theorem claim_C3_counterexample :
    buildGraph fixDivFailOracle emptyDB [fixItemD1, fixItemD2] =
      .error () ∧
    (buildGraph fixDivFailOracle emptyDB [fixItemD2]).map
      (fun db => db.facilities.length) = .ok 1 ∧
    fixDivFailOracle.failCompany = false ∧
    (buildGraph okOracle emptyDB [fixItemD1, fixItemD2]).map
      (fun db => db.facilities.length) = .ok 2 := by
  exact ⟨by decide, by decide, by decide, by decide⟩

/-- Witness for claim C3 (amended): the no-failure oracle on a two-item
batch. -/
theorem claim_C3_amended_witness :
    okOracle.failCompany = false ∧
    ∃ db2, buildGraph okOracle emptyDB [fixItemD1, fixItemD2] =
      .ok db2 :=
  ⟨by decide, claim_C3_amended okOracle emptyDB [fixItemD1, fixItemD2]
    (by decide) (fun s => rfl)⟩

/-- claim C2 — counterexample: the pair
`("abcdef", loc "")` / `("abcdef", loc "gujarat")` has identical
non-empty normalized names with exactly one empty location, yet the
Rule 1 block returns a merge (name longer than 5 characters suffices when
*either* location is empty), `should_merge` is true, the claim's reading
of Rule A is false, and Rule B does not apply (it needs both locations
non-empty). -/
theorem claim_C2_counterexample :
    ruleAOutcome "abcdef" "" "abcdef" "gujarat" = some true ∧
    ¬ specRuleA "abcdef" "" "abcdef" "gujarat" ∧
    shouldMerge "abcdef" "" "abcdef" "gujarat" (mkRat 4 5) = true ∧
    ruleB (normalizeName "abcdef") (normalizeName "abcdef") ""
      "gujarat" (mkRat 4 5) = false := by
  exact ⟨by decide, by decide, by decide, by decide⟩

/-- claim C2 (amended) — Rule A characterized as the code implements it:
with identical non-empty normalized names, the pair merges under Rule A
iff (at least one location is empty and the shared name is longer than 5
characters) or (both locations are non-empty and their token sets
intersect); moreover, whenever the Rule A block reaches a verdict
(either location empty, or token sets intersecting), `should_merge`
returns that verdict directly and Rule B is not consulted. -/
theorem claim_C2_amended (name1 loc1 name2 loc2 : String) :
    (ruleAOutcome name1 loc1 name2 loc2 = some true ↔
      (normalizeName name1 = normalizeName name2 ∧
        normalizeName name1 ≠ "" ∧
        (((locLower loc1 = "" ∨ locLower loc2 = "") ∧
            5 < (normalizeName name1).length) ∨
          (locLower loc1 ≠ "" ∧ locLower loc2 ≠ "" ∧
            tokSet (locLower loc1) ∩ tokSet (locLower loc2) ≠ ∅)))) ∧
    (∀ threshold b, ruleAOutcome name1 loc1 name2 loc2 = some b →
      shouldMerge name1 loc1 name2 loc2 threshold = b) := by
  constructor
  · unfold ruleAOutcome
    dsimp only
    split_ifs with h1 h2 h3
    · constructor
      · intro h
        have hlen : 5 < (normalizeName name1).length := by
          have := Option.some.inj h
          exact of_decide_eq_true this
        exact ⟨h1.1, h1.2, Or.inl ⟨h2, hlen⟩⟩
      · rintro ⟨-, -, hor⟩
        rcases hor with ⟨-, hlen⟩ | ⟨hne1, hne2, -⟩
        · rw [decide_eq_true hlen]
        · rcases h2 with he | he
          exacts [absurd he hne1, absurd he hne2]
    · constructor
      · intro _
        push_neg at h2
        exact ⟨h1.1, h1.2, Or.inr ⟨h2.1, h2.2, h3⟩⟩
      · intro _
        rfl
    · constructor
      · intro h
        exact absurd h (by simp)
      · rintro ⟨-, -, hor⟩
        push_neg at h2
        rcases hor with ⟨he, -⟩ | ⟨-, -, hint⟩
        · rcases he with he | he
          exacts [absurd he h2.1, absurd he h2.2]
        · exact absurd hint h3
    · constructor
      · intro h
        exact absurd h (by simp)
      · rintro ⟨he1, he2, -⟩
        exact absurd ⟨he1, he2⟩ h1
  · intro threshold b h
    unfold shouldMerge
    dsimp only
    rw [h]

/-- Witness for claim C2 (amended) at the counterexample pair. -/
theorem claim_C2_amended_witness :
    ruleAOutcome "abcdef" "" "abcdef" "gujarat" = some true ∧
    shouldMerge "abcdef" "" "abcdef" "gujarat" (mkRat 4 5) = true :=
  ⟨(claim_C2_amended "abcdef" "" "abcdef" "gujarat").1.mpr (by decide),
   (claim_C2_amended "abcdef" "" "abcdef" "gujarat").2 (mkRat 4 5) true
     (by decide)⟩

/-- Looking up a key just set returns the set value. -/
theorem dget_dset (d : Dict) (k : String) (v : PyVal) :
    dget (dset d k v) k = some v := by
  induction d with
  | nil => simp [dset, dget]
  | cons kv rest ih =>
      rcases kv with ⟨k2, w⟩
      by_cases h : k2 = k
      · subst h
        simp [dset, dget]
      · simp [dset, dget, h, ih]

/-- The `merge_count` stored by `_merge_facility_group` is the group
size. -/
theorem mergeCountOf_group (f : Fac) (ms : List Fac) :
    mergeCountOf (mergeFacilityGroup (f, ms)) = 1 + ms.length := by
  unfold mergeFacilityGroup mergeCountOf
  dsimp only
  rw [dget_dset]
  rw [Rat.mkRat_one]
  dsimp only
  rw [Rat.intCast_num]
  omega

/-- A Boolean filter and its negation partition the length. -/
theorem length_filter_partition {α : Type} (p : α → Bool) (l : List α) :
    (l.filter p).length + (l.filter (fun a => ! p a)).length =
      l.length := by
  induction l with
  | nil => rfl
  | cons a rest ih =>
      by_cases h : p a = true
      · simp [List.filter_cons, h]
        omega
      · simp [List.filter_cons, h]
        omega

/-- Fuel irrelevance for the anchor scan. -/
theorem resolveListFuel_congr : ∀ (n m : ℕ) (l : List Fac),
    l.length ≤ n → l.length ≤ m →
    resolveListFuel n l = resolveListFuel m l := by
  intro n
  induction n with
  | zero =>
      intro m l hn _
      have hl : l = [] := List.length_eq_zero.mp (Nat.le_zero.mp hn)
      subst hl
      cases m <;> rfl
  | succ n ih =>
      intro m l hn hm
      cases l with
      | nil => cases m <;> rfl
      | cons f rest =>
          cases m with
          | zero => exact absurd hm (by simp)
          | succ m2 =>
              rw [resolveListFuel, resolveListFuel]
              have hr : rest.length ≤ n := Nat.succ_le_succ_iff.mp hn
              have hr2 : rest.length ≤ m2 := Nat.succ_le_succ_iff.mp hm
              congr 1
              exact ih m2 _
                (le_trans (List.length_filter_le _ _) hr)
                (le_trans (List.length_filter_le _ _) hr2)

/-- Fuel irrelevance for the division-key scan. -/
theorem firstKeysFuel_congr : ∀ (n m : ℕ) (l : List Fac),
    l.length ≤ n → l.length ≤ m →
    firstKeysFuel n l = firstKeysFuel m l := by
  intro n
  induction n with
  | zero =>
      intro m l hn _
      have hl : l = [] := List.length_eq_zero.mp (Nat.le_zero.mp hn)
      subst hl
      cases m <;> rfl
  | succ n ih =>
      intro m l hn hm
      cases l with
      | nil => cases m <;> rfl
      | cons f rest =>
          cases m with
          | zero => exact absurd hm (by simp)
          | succ m2 =>
              rw [firstKeysFuel, firstKeysFuel]
              have hr : rest.length ≤ n := Nat.succ_le_succ_iff.mp hn
              have hr2 : rest.length ≤ m2 := Nat.succ_le_succ_iff.mp hm
              congr 1
              exact ih m2 _
                (le_trans (List.length_filter_le _ _) hr)
                (le_trans (List.length_filter_le _ _) hr2)

/-- Group sizes produced by the anchor scan add up to the partition
size: every candidate lands in exactly one group. -/
theorem resolveListFuel_sum : ∀ (n : ℕ) (l : List Fac),
    l.length ≤ n →
    ((resolveListFuel n l).map (fun g => 1 + g.2.length)).sum =
      l.length := by
  intro n
  induction n with
  | zero =>
      intro l hn
      have hl : l = [] := List.length_eq_zero.mp (Nat.le_zero.mp hn)
      subst hl
      rfl
  | succ n ih =>
      intro l hn
      cases l with
      | nil => rfl
      | cons f rest =>
          rw [resolveListFuel, List.map_cons, List.sum_cons]
          have hr : rest.length ≤ n := Nat.succ_le_succ_iff.mp hn
          rw [ih _ (le_trans (List.length_filter_le _ _) hr)]
          have hpart := length_filter_partition
            (fun g => shouldMergeF f g) rest
          simp only [List.length_cons]
          omega

/-- The anchor scan returns at most as many groups as candidates. -/
theorem resolveListFuel_len : ∀ (n : ℕ) (l : List Fac),
    (resolveListFuel n l).length ≤ l.length := by
  intro n
  induction n with
  | zero => intro l; simp [resolveListFuel]
  | succ n ih =>
      intro l
      cases l with
      | nil => simp [resolveListFuel]
      | cons f rest =>
          rw [resolveListFuel, List.length_cons]
          exact Nat.succ_le_succ
            (le_trans (ih _) (List.length_filter_le _ _))

/-- Every key listed by the division-key scan is the key of some
candidate. -/
theorem firstKeysFuel_key : ∀ (n : ℕ) (l : List Fac) (k : PyVal),
    k ∈ firstKeysFuel n l → ∃ g, g ∈ l ∧ divKey g = k := by
  intro n
  induction n with
  | zero => intro l k h; simp [firstKeysFuel] at h
  | succ n ih =>
      intro l k h
      cases l with
      | nil => simp [firstKeysFuel] at h
      | cons f rest =>
          rw [firstKeysFuel] at h
          rcases List.mem_cons.mp h with h1 | h2
          · exact ⟨f, List.mem_cons_self _ _, h1.symm⟩
          · obtain ⟨g, hg, hk⟩ := ih _ k h2
            exact ⟨g, List.mem_cons_of_mem _
              (List.mem_filter.mp hg).1, hk⟩

/-- Every candidate's key is listed by the division-key scan. -/
theorem firstKeysFuel_mem : ∀ (n : ℕ) (l : List Fac) (g : Fac),
    l.length ≤ n → g ∈ l → divKey g ∈ firstKeysFuel n l := by
  intro n
  induction n with
  | zero =>
      intro l g hn hg
      have hl : l = [] := List.length_eq_zero.mp (Nat.le_zero.mp hn)
      subst hl
      simp at hg
  | succ n ih =>
      intro l g hn hg
      cases l with
      | nil => simp at hg
      | cons f rest =>
          rw [firstKeysFuel]
          by_cases hk : divKey g = divKey f
          · rw [hk]
            exact List.mem_cons_self _ _
          · rcases List.mem_cons.mp hg with h1 | h2
            · exact absurd (h1 ▸ rfl) hk
            · have hr : rest.length ≤ n := Nat.succ_le_succ_iff.mp hn
              refine List.mem_cons_of_mem _ (ih _ g ?_ ?_)
              · exact le_trans (List.length_filter_le _ _) hr
              · exact List.mem_filter.mpr ⟨h2, by simp [hk]⟩

/-- Filtering for one key commutes with first removing a different
key. -/
theorem filter_ne_filter_eq (k0 k : PyVal) (hk : k ≠ k0) :
    ∀ l : List Fac,
      ((l.filter (fun g => ! decide (divKey g = k0))).filter
        (fun g => decide (divKey g = k))) =
      l.filter (fun g => decide (divKey g = k)) := by
  intro l
  induction l with
  | nil => rfl
  | cons g rest ih =>
      by_cases h : divKey g = k
      · have h0 : ¬ divKey g = k0 := by
          rw [h]
          exact hk
        simp [List.filter_cons, h, h0, ih, hk]
      · by_cases h0 : divKey g = k0
        · simp [List.filter_cons, h, h0, ih, Ne.symm hk]
        · simp [List.filter_cons, h, h0, ih]

/-- The division partitions cover the input exactly: group sizes over the
first-occurrence key list add up to the total. -/
theorem firstKeysFuel_sum : ∀ (n : ℕ) (l : List Fac),
    l.length ≤ n →
    ((firstKeysFuel n l).map
      (fun k => (l.filter (fun g => decide (divKey g = k))).length)).sum =
      l.length := by
  intro n
  induction n with
  | zero =>
      intro l hn
      have hl : l = [] := List.length_eq_zero.mp (Nat.le_zero.mp hn)
      subst hl
      rfl
  | succ n ih =>
      intro l hn
      cases l with
      | nil => rfl
      | cons f rest =>
          rw [firstKeysFuel, List.map_cons, List.sum_cons]
          have hr : rest.length ≤ n := Nat.succ_le_succ_iff.mp hn
          have hlen : (rest.filter
              (fun g => ! decide (divKey g = divKey f))).length ≤ n :=
            le_trans (List.length_filter_le _ _) hr
          have hmapeq : (firstKeysFuel n (rest.filter
              (fun g => ! decide (divKey g = divKey f)))).map
                (fun k => ((f :: rest).filter
                  (fun g => decide (divKey g = k))).length) =
              (firstKeysFuel n (rest.filter
                (fun g => ! decide (divKey g = divKey f)))).map
                (fun k => ((rest.filter
                  (fun g => ! decide (divKey g = divKey f))).filter
                    (fun g => decide (divKey g = k))).length) := by
            refine List.map_congr_left ?_
            intro k hkmem
            obtain ⟨g, hg, hgk⟩ := firstKeysFuel_key n _ k hkmem
            have h2 := (List.mem_filter.mp hg).2
            have h3 : divKey g ≠ divKey f := by
              simpa using h2
            have hkne : k ≠ divKey f := by
              intro he
              exact h3 (by rw [hgk, he])
            rw [filter_ne_filter_eq (divKey f) k hkne rest]
            simp [List.filter_cons, Ne.symm hkne]
          rw [hmapeq, ih _ hlen]
          have hpart := length_filter_partition
            (fun g => decide (divKey g = divKey f)) rest
          have hhead : ((f :: rest).filter
              (fun g => decide (divKey g = divKey f))).length =
              1 + (rest.filter
                (fun g => decide (divKey g = divKey f))).length := by
            simp [List.filter_cons]
            omega
          rw [hhead]
          simp only [List.length_cons]
          omega

/-- Sums distribute over `flatMap`. -/
theorem sum_flatMap_nat {α : Type} (l : List α) (f : α → List ℕ) :
    (l.flatMap f).sum = (l.map (fun a => (f a).sum)).sum := by
  induction l with
  | nil => rfl
  | cons a rest ih => simp [List.flatMap_cons, List.sum_append, ih]

/-- claim C9 — the resolver output partitions its input: every candidate
is counted in exactly one merge group, so the `merge_count` fields of the
records returned by `resolve_facilities` add up to the number of input
candidates, and at most as many records are returned as candidates were
given. -/
theorem claim_C9 (fs : List Fac) :
    ((resolveFacilities fs).map mergeCountOf).sum = fs.length ∧
    (resolveFacilities fs).length ≤ fs.length := by
  by_cases hemp : fs = []
  · subst hemp
    exact ⟨rfl, le_rfl⟩
  · have hkeysum := firstKeysFuel_sum fs.length fs le_rfl
    constructor
    · unfold resolveFacilities
      rw [if_neg hemp]
      rw [List.map_flatMap, sum_flatMap_nat]
      rw [← hkeysum]
      refine congrArg List.sum (List.map_congr_left ?_)
      intro k _
      rw [List.map_map]
      have hcomp : ((resolveList (fs.filter
          (fun f => decide (divKey f = k)))).map
            (mergeCountOf ∘ mergeFacilityGroup)) =
          ((resolveList (fs.filter (fun f => decide (divKey f = k)))).map
            (fun g => 1 + g.2.length)) := by
        refine List.map_congr_left ?_
        intro g _
        rcases g with ⟨a, ms⟩
        exact mergeCountOf_group a ms
      rw [hcomp]
      exact resolveListFuel_sum _ _ le_rfl
    · unfold resolveFacilities
      rw [if_neg hemp]
      rw [List.length_flatMap]
      rw [← hkeysum]
      refine List.sum_le_sum ?_
      intro k _
      simp only [Function.comp, List.length_map]
      exact resolveListFuel_len _ _

/-- Anchor case of the singleton lemma: a candidate at the head of its
partition that matches nothing later forms the group `(f, [])`. -/
theorem resolveList_singleton_nil (f : Fac) (l2 : List Fac)
    (h2 : ∀ g, g ∈ l2 → shouldMergeF f g = false) :
    (f, ([] : List Fac)) ∈ resolveList (f :: l2) := by
  show (f, ([] : List Fac)) ∈ resolveListFuel (f :: l2).length (f :: l2)
  rw [List.length_cons, resolveListFuel]
  have hmatch : l2.filter (fun g => shouldMergeF f g) = [] := by
    rw [List.filter_eq_nil_iff]
    intro g hg
    simp [h2 g hg]
  rw [hmatch]
  exact List.mem_cons_self _ _

/-- A candidate that no earlier-scanned candidate absorbs and that
absorbs no later candidate ends up as the anchor of a singleton group. -/
theorem resolveList_singleton (f : Fac) :
    ∀ (n : ℕ) (l1 l2 : List Fac), l1.length ≤ n →
      (∀ g, g ∈ l1 → shouldMergeF g f = false) →
      (∀ g, g ∈ l2 → shouldMergeF f g = false) →
      (f, ([] : List Fac)) ∈ resolveList (l1 ++ f :: l2) := by
  intro n
  induction n with
  | zero =>
      intro l1 l2 hn _ h2
      have hl : l1 = [] := List.length_eq_zero.mp (Nat.le_zero.mp hn)
      subst hl
      rw [List.nil_append]
      exact resolveList_singleton_nil f l2 h2
  | succ n ih =>
      intro l1 l2 hn h1 h2
      cases l1 with
      | nil =>
          rw [List.nil_append]
          exact resolveList_singleton_nil f l2 h2
      | cons a l1b =>
          show (f, ([] : List Fac)) ∈
            resolveListFuel ((a :: l1b) ++ f :: l2).length
              ((a :: l1b) ++ f :: l2)
          rw [List.cons_append, List.length_cons, resolveListFuel]
          refine List.mem_cons_of_mem _ ?_
          have haf : (! shouldMergeF a f) = true := by
            rw [h1 a (List.mem_cons_self _ _)]
            rfl
          have hfilt : (l1b ++ f :: l2).filter
              (fun g => ! shouldMergeF a g) =
              (l1b.filter (fun g => ! shouldMergeF a g)) ++ f ::
                (l2.filter (fun g => ! shouldMergeF a g)) := by
            rw [List.filter_append, List.filter_cons, haf]
            simp
          rw [hfilt]
          have hlen2 : ((l1b.filter (fun g => ! shouldMergeF a g)) ++
              f :: (l2.filter (fun g => ! shouldMergeF a g))).length ≤
              (l1b ++ f :: l2).length := by
            rw [← hfilt]
            exact List.length_filter_le _ _
          rw [resolveListFuel_congr (l1b ++ f :: l2).length
            ((l1b.filter (fun g => ! shouldMergeF a g)) ++
              f :: (l2.filter (fun g => ! shouldMergeF a g))).length
            _ hlen2 le_rfl]
          refine ih (l1b.filter (fun g => ! shouldMergeF a g))
            (l2.filter (fun g => ! shouldMergeF a g)) ?_ ?_ ?_
          · exact le_trans (List.length_filter_le _ _)
              (Nat.succ_le_succ_iff.mp hn)
          · intro g hg
            exact h1 g (List.mem_cons_of_mem _ (List.mem_filter.mp hg).1)
          · intro g hg
            exact h2 g (List.mem_filter.mp hg).1

/-- claim C5 — corrected singleton pass-through: the empty input maps to
the empty output, and a candidate that matches no other candidate of its
division partition is returned as its own group, with all of its original
fields unchanged but extended by the bookkeeping fields
`was_merged = True` and `merge_count = 1` (the claim's "no fields added"
does not hold). -/
theorem claim_C5 :
    resolveFacilities [] = [] ∧
    ∀ (fs l1 l2 : List Fac) (f : Fac),
      fs.filter (fun g => decide (divKey g = divKey f)) = l1 ++ f :: l2 →
      (∀ g, g ∈ l1 ∨ g ∈ l2 →
        shouldMergeF f g = false ∧ shouldMergeF g f = false) →
      dset (dset f "was_merged" (.bool true)) "merge_count"
        (.num (mkRat 1 1)) ∈ resolveFacilities fs := by
  constructor
  · rfl
  · intro fs l1 l2 f hpart hno
    have hfs : fs ≠ [] := by
      intro h
      subst h
      simp at hpart
    have hfmem : f ∈ fs := by
      have hmem : f ∈ fs.filter (fun g => decide (divKey g = divKey f)) := by
        rw [hpart]
        exact List.mem_append_right _ (List.mem_cons_self _ _)
      exact (List.mem_filter.mp hmem).1
    have hkey : divKey f ∈ firstKeys fs :=
      firstKeysFuel_mem fs.length fs f le_rfl hfmem
    unfold resolveFacilities
    rw [if_neg hfs]
    refine List.mem_flatMap.mpr ⟨divKey f, hkey, ?_⟩
    rw [hpart]
    have hgrp : mergeFacilityGroup (f, ([] : List Fac)) =
        dset (dset f "was_merged" (.bool true)) "merge_count"
          (.num (mkRat 1 1)) := rfl
    rw [← hgrp]
    refine List.mem_map_of_mem _ ?_
    exact resolveList_singleton f l1.length l1 l2 le_rfl
      (fun g hg => (hno g (Or.inl hg)).2)
      (fun g hg => (hno g (Or.inr hg)).1)

/-- claim C5 — counterexample: a singleton input is *not* returned
unchanged; the output record carries the two added bookkeeping fields. -/
theorem claim_C5_counterexample :
    resolveFacilities [fixSanand] =
      [fixSanand ++ [("was_merged", PyVal.bool true),
        ("merge_count", PyVal.num (mkRat 1 1))]] ∧
    resolveFacilities [fixSanand] ≠ [fixSanand] := by
  exact ⟨by decide, by decide⟩

/-- Witness for claim C5 at the singleton input. -/
theorem claim_C5_witness :
    dset (dset fixSanand "was_merged" (.bool true)) "merge_count"
      (.num (mkRat 1 1)) ∈ resolveFacilities [fixSanand] :=
  claim_C5.2 [fixSanand] [] [] fixSanand (by decide)
    (fun g hg => by rcases hg with h | h <;> cases h)
